import Mathlib

/-! floe server middleware: session resolution, dispatch, gzip wrapper, static mount

A shallow embedding of `server/middleware.go`.

Effects on an `http.ResponseWriter` are modelled by the list of calls a function
makes on the writer it is handed, in program order (`Call`).  A handler is the calls
it makes.  A library call that panics ends the function that made it, so the two
panics that can cut this code short are part of the model: `WriteHeader` with a
status code outside 100..999 and `httprouter` refusing a route.  What the libraries
do with a call that returns (header serialisation, cookie sanitising, ignoring a
second `WriteHeader`) is not modelled.  Logging (`log.Debug`, the deferred `rsp:`
line) writes nothing to the response and is left out.
-/

namespace Floe

/-! ## Constants -/

def rOK : Int := 200
def rUnauth : Int := 401
def rBad : Int := 400
def rNotFound : Int := 404
def rErr : Int := 500
def rCreated : Int := 201
def rConflict : Int := 409

def cookieName : String := "floe-sesh"

/-! ## Values and bytes -/

/-- Go values handed to `jsonResp` as `renderable` (an empty interface): nil, a
string, the `wrapper` struct, any other value `encoding/json` accepts (named by a
label), or a value it rejects (channel, func, complex, NaN), carrying the text of
the encoder error. -/
inductive renderable where
  | nil : renderable
  | string (s : String) : renderable
  | wrapper (Message : String) (Payload : renderable) : renderable
  | value (label : String) : renderable
  | unsupported (err : String) : renderable
  deriving DecidableEq, Repr

/-- Byte strings passed to `Write`, kept symbolic: the result of
`json.MarshalIndent(v, "", "  ")`, literal text, or the gzip stream produced
from a sequence of writes. -/
inductive Bytes where
  | json (v : renderable) : Bytes
  | text (s : String) : Bytes
  | gzip (parts : List Bytes) : Bytes

/-- The error of `json.MarshalIndent`, if any: a struct fails exactly when a field does. -/
def marshalError : renderable → Option String
  | .nil => none
  | .string _ => none
  | .value _ => none
  | .unsupported err => some err
  | .wrapper _ p => marshalError p

/-- The call `json.MarshalIndent(r, "", "  ")`. -/
def MarshalIndent (r : renderable) : Except String Bytes :=
  match marshalError r with
  | some err => .error err
  | none => .ok (.json r)

/-! ## Requests -/

/-- The fields of `http.Cookie` this package reads or sets; `Expires` is an instant
in nanoseconds. -/
structure Cookie where
  Name : String
  Value : String
  Expires : Int := 0
  Path : String := ""
  deriving DecidableEq, Repr

/-- An `http.Header`: keys with their value lists. -/
structure Header where
  entries : List (String × List String)
  deriving DecidableEq, Repr

/-- The map index `h[key]`: the value list, nil when the key is absent. -/
def Header.values (h : Header) (key : String) : List String :=
  match h.entries.lookup key with
  | some vs => vs
  | none => []

/-- The method `h.Get(key)`: the first value of the key, or "" (the keys used here
are already in canonical form). -/
def Header.Get (h : Header) (key : String) : String :=
  match h.values key with
  | v :: _ => v
  | [] => ""

/-- One `httprouter.Param`. -/
structure Param where
  Key : String
  Value : String
  deriving DecidableEq, Repr

abbrev Params := List Param

/-- The method `ps.ByName(name)`: value of the first parameter of that name, or "". -/
def Params.ByName (ps : Params) (name : String) : String :=
  match ps.find? (fun p => p.Key == name) with
  | some p => p.Value
  | none => ""

/-- An `http.Request`: method, `URL.Path`, header map, and the cookies `net/http`
parses out of the `Cookie` header lines, in order. -/
structure Request where
  Method : String := "GET"
  URLPath : String := "/"
  Header : Header := ⟨[]⟩
  Cookies : List Cookie := []
  deriving DecidableEq, Repr

/-- The method `r.Cookie(name)`: the first cookie of that name, or `ErrNoCookie`. -/
def Request.Cookie (r : Request) (name : String) : Except String Cookie :=
  if name = "" then .error "http: named cookie not present"
  else
    match r.Cookies.find? (fun c => c.Name == name) with
    | some c => .ok c
    | none => .error "http: named cookie not present"

/-! ## Go strings and panics -/

/-- A Go string as its bytes: `len` and slicing count bytes. -/
abbrev GoString := List UInt8

/-- The bytes of a string literal. -/
def lit (s : String) : GoString := s.toUTF8.data.toList

/-- A panic: one raised by `panic(msg)` with a string, the runtime error of a slice
expression whose bounds are out of range, or the panic of `net/http` on
`WriteHeader` with a code outside 100..999 ("invalid WriteHeader code"). -/
inductive Panic where
  | message (msg : GoString) : Panic
  | sliceBounds : Panic
  | invalidWriteHeader (code : Int) : Panic
  deriving DecidableEq

/-! ## Response writer calls -/

/-- One call on an `http.ResponseWriter`. -/
inductive Call where
  | HeaderSet (key value : String) : Call
  | SetCookie (c : Cookie) : Call
  | WriteHeader (code : Int) : Call
  | Write (b : Bytes) : Call

/-- What a function writing to `rw` did: the calls it made, and the panic that cut
it short, if one did. -/
structure Outcome where
  calls : List Call
  panic : Option Panic

/-- Whether the header of the writer is written after the calls: `WriteHeader`
writes it and so does the first `Write` (on the gzip wrapper the first `Write`
makes the gzip writer send the head of its stream to `rw`). -/
def wroteHeader : List Call → Bool
  | [] => false
  | .WriteHeader _ :: _ => true
  | .Write _ :: _ => true
  | _ :: cs => wroteHeader cs

/-- The panic of the call `w.WriteHeader(code)` on the writer of `net/http`: once the
header is written the call is logged and ignored; before that a code outside
100..999 panics. `wrote` tells whether the header is already written. -/
def WriteHeaderPanic (wrote : Bool) (code : Int) : Option Panic :=
  if wrote then none
  else if code < 100 ∨ code > 999 then some (.invalidWriteHeader code)
  else none

/-- The codes passed to `WriteHeader`, in order. -/
def statusLines : List Call → List Int
  | [] => []
  | .WriteHeader code :: cs => code :: statusLines cs
  | _ :: cs => statusLines cs

/-- The byte strings passed to `Write`, in order. -/
def bodyWrites : List Call → List Bytes
  | [] => []
  | .Write b :: cs => b :: bodyWrites cs
  | _ :: cs => bodyWrites cs

/-- The calls other than `Write`, in order. -/
def headerCalls : List Call → List Call
  | [] => []
  | .Write _ :: cs => headerCalls cs
  | c :: cs => c :: headerCalls cs

/-- The cookies passed to `http.SetCookie`, in order. -/
def cookiesSet : List Call → List Cookie
  | [] => []
  | .SetCookie c :: cs => c :: cookiesSet cs
  | _ :: cs => cookiesSet cs

/-- The value a header key holds after the calls: that of the last
`Header().Set` on it. -/
def headerValue (key : String) : List Call → Option String
  | [] => none
  | .HeaderSet k v :: cs =>
    match headerValue key cs with
    | some w => some w
    | none => if k = key then some v else none
  | _ :: cs => headerValue key cs

/-! ## Sessions and the environment -/

/-- Modelled from the spec: the `session` struct (declared outside the given
sources); the three fields `authRequest` fills in. `lastActive` is an instant in
nanoseconds. -/
structure session where
  token : String
  lastActive : Int
  user : String
  deriving DecidableEq, Repr

/-- What the package reads from outside a request: the package variable
`AdminToken`, the session validator `goodToken` and the constant `seshLifetime`
(both declared outside the given sources), and the two readings of `time.Now()`
taken in `authRequest` and in `setCookie`. -/
structure Env where
  AdminToken : String
  goodToken : String → Option session
  seshLifetime : Int
  nowSesh : Int
  nowCookie : Int

/-- The external type `hub.Hub`, passed through untouched. -/
structure Hub where
  id : Nat
  deriving DecidableEq, Repr

structure context where
  ps : Params
  sesh : Option session
  hub : Hub
  deriving DecidableEq, Repr

/-- What one call of a `contextFunc` that returns does: the calls it makes on `rw`
and the triple it returns. -/
structure Reply where
  calls : List Call
  code : Int
  msg : String
  res : renderable

abbrev contextFunc := Request → context → Reply

/-- An `httprouter.Handle`: the calls it makes on its writer, which the router hands
over with its header not yet written. -/
abbrev Handle := Request → Params → List Call

structure handler where
  hub : Hub

/-! ## The middleware -/

/-- The two statements `w.WriteHeader(code); w.Write(b)`: when `WriteHeader`
panics the `Write` is not reached. -/
def writeResp (wrote : Bool) (code : Int) (b : Bytes) : Outcome :=
  match WriteHeaderPanic wrote code with
  | some p => { calls := [.WriteHeader code], panic := some p }
  | none => { calls := [.WriteHeader code, .Write b], panic := none }

/-- The function `jsonResp(w, code, r)`; `wrote` tells whether the header of `w` is
already written when it is called. -/
def jsonResp (wrote : Bool) (code : Int) (r : renderable) : Outcome :=
  match MarshalIndent r with
  | .error err =>
    writeResp wrote 500
      (.text ("\x7b\"Status\": \"Fail\", \"Payload\": \"" ++ err ++ "\"\x7d"))
  | .ok b => writeResp wrote code b

def setCookie (env : Env) (tok : String) : List Call :=
  let expiration := env.nowCookie + env.seshLifetime
  [.SetCookie { Name := cookieName, Value := tok, Expires := expiration, Path := "/" }]

def cors (r : Request) : List Call :=
  [.HeaderSet "Content-Type" "application/json",
   .HeaderSet "Access-Control-Allow-Origin" "*",
   .HeaderSet "Access-Control-Allow-Methods" "POST, GET, PUT, OPTIONS, DELETE",
   .HeaderSet "Access-Control-Allow-Headers"
     (",".intercalate (r.Header.values "Access-Control-Request-Headers"))]

/-- The token `authRequest` works with (lines 90-99): the `X-Floe-Auth` header,
else the value of the `floe-sesh` cookie, else "". -/
def resolveTok (r : Request) : String :=
  let tok := r.Header.Get "X-Floe-Auth"
  if tok = "" then
    match r.Cookie cookieName with
    | .error _ => tok
    | .ok c => c.Value
  else tok

/-- The function `authRequest`: the calls made on `rw` and the session returned. It
is called from `mw` right after `cors`, with the header of `rw` not yet written;
its two `jsonResp` calls pass the valid code 401 and a wrapper that always encodes,
so neither can panic. -/
def authRequest (env : Env) (r : Request) : List Call × Option session :=
  let tok := resolveTok r
  if tok = "" then
    ((jsonResp false rUnauth (.wrapper "missing session" .nil)).calls, none)
  else
    let sesh : Option session :=
      if tok = env.AdminToken then
        some { token := tok, lastActive := env.nowSesh, user := "Admin" }
      else none
    match sesh with
    | some s => (setCookie env tok, some s)
    | none =>
      match env.goodToken tok with
      | none => ((jsonResp false rUnauth (.wrapper "invalid session" .nil)).calls, none)
      | some s => (setCookie env tok, some s)

/-- What one run of the closure `fn` built by `mw` did: the calls it made on `rw`,
the context it called the business handler `f` with (`none` when `f` was not
called), and the panic that ended it, if one did. -/
structure Served where
  calls : List Call
  ctx : Option context
  panic : Option Panic

/-- Lines 162-183 of `mw`: build the context, call `f`, render its result. `pre`
are the calls already made on `rw`. -/
def handler.dispatch (h : handler) (f : contextFunc) (pre : List Call)
    (sesh : Option session) (r : Request) (ps : Params) : Served :=
  let ctx : context := { ps := ps, sesh := sesh, hub := h.hub }
  let rep := f r ctx
  if rep.code = 0 then
    { calls := pre ++ rep.calls, ctx := some ctx, panic := none }
  else
    let msg := if rep.msg = "" ∧ rep.code = rOK then "OK" else rep.msg
    let reply := renderable.wrapper msg rep.res
    let out := jsonResp (wroteHeader (pre ++ rep.calls)) rep.code reply
    { calls := pre ++ rep.calls ++ out.calls, ctx := some ctx, panic := out.panic }

/-- The closure `fn` of `mw`, run on a writer whose header is not yet written; a nil
handler `f` is `none`. -/
def handler.fn (h : handler) (env : Env) (f : Option contextFunc) (auth : Bool)
    (r : Request) (ps : Params) : Served :=
  let pre := cors r
  match f with
  | none =>
    let out := jsonResp false rOK (.string "ok")
    { calls := pre ++ out.calls, ctx := none, panic := out.panic }
  | some f =>
    if auth then
      match authRequest env r with
      | (a, none) => { calls := pre ++ a, ctx := none, panic := none }
      | (a, some s) => h.dispatch f (pre ++ a) (some s) r ps
    else
      h.dispatch f pre none r ps

/-- The call `strings.Contains(s, substr)`. -/
def Contains (s substr : String) : Bool :=
  s.data.tails.any (fun t => substr.data.isPrefixOf t)

/-- The struct `gzipResponseWriter{Writer: gz, ResponseWriter: rw}` seen from `rw`:
given the calls made on the wrapper, the calls that reach `rw` once `gz` is closed.
`Header` and `WriteHeader` are promoted from the embedded `ResponseWriter` and reach
`rw` as they are; `Write` goes to the gzip writer, whose stream is recorded as one
`Write` at `Close` (the compressor's own flush points are not modelled). -/
def gzipResponseWriter (calls : List Call) : List Call :=
  headerCalls calls ++ [.Write (.gzip (bodyWrites calls))]

def zipper (fn : Handle) : Handle := fun r ps =>
  if !Contains (r.Header.Get "Accept-Encoding") "gzip" then
    fn r ps
  else
    [.HeaderSet "Vary" "Accept-Encoding", .HeaderSet "Content-Encoding" "gzip"]
      ++ gzipResponseWriter (fn r ps)

/-- The method `mw`: the calls the route makes on its writer. A panic of the closure
unwinds through `zipper`, whose deferred `gz.Close()` still runs, so these are the
calls whether or not the closure panicked; the panic itself is in `handler.fn`. -/
def handler.mw (h : handler) (env : Env) (f : Option contextFunc) (auth : Bool) : Handle :=
  zipper (fun r ps => (h.fn env f auth r ps).calls)

def adaptSub (_hub : Hub) (handle : Handle) : contextFunc := fun req ctx =>
  { calls := handle req ctx.ps, code := 0, msg := "", res := .nil }

/-! ## Static files -/

/-- The slice expression `s[lo:]`. -/
def sliceFrom (s : GoString) (lo : Int) : Except Panic GoString :=
  if lo < 0 ∨ (s.length : Int) < lo then .error .sliceBounds
  else .ok (s.drop lo.toNat)

/-- One route registered on an `httprouter.Router`. -/
structure Route where
  method : String
  path : GoString
  handle : Handle

/-- An `httprouter.Router`: the routes registered, in order of registration, and the
verdict of its route tree (`addRoute`, part of the library) on adding a path under
a method to them: `none` when it takes the route, the panic message when it refuses
(a conflict with a registered route, a malformed wildcard). -/
structure Router where
  routes : List Route
  addRoute : List Route → String → GoString → Option GoString

/-- The method `r.Handle(method, path, handle)` of httprouter: it panics on a path
that does not begin with '/' (byte 47) and when the route tree refuses the route;
otherwise the route is registered. -/
def Router.Handle (r : Router) (method : String) (path : GoString) (handle : Handle) :
    Except Panic Router :=
  if path.length < 1 ∨ path.head? ≠ some 47 then
    .error (.message (lit "path must begin with '/' in path '" ++ path ++ lit "'"))
  else
    match r.addRoute r.routes method path with
    | some msg => .error (.message msg)
    | none =>
      .ok { r with
        routes := r.routes ++ [{ method := method, path := path, handle := handle }] }

/-- The method `r.GET(path, handle)`, a shortcut for `r.Handle("GET", path, handle)`. -/
def Router.GET (r : Router) (path : GoString) (handle : Floe.Handle) :
    Except Panic Router :=
  r.Handle "GET" path handle

/-- The function `serveFiles`; `fileServer` is `http.FileServer(root).ServeHTTP`. -/
def serveFiles (r : Router) (path : GoString) (fileServer : Request → List Call) :
    Except Panic Router :=
  let fail : Except Panic Router :=
    .error (.message (lit "path must end with /*filepath in path '" ++ path ++ lit "'"))
  if (path.length : Int) < 10 then fail
  else
    match sliceFrom path ((path.length : Int) - 10) with
    | .error p => .error p
    | .ok suffix =>
      if suffix ≠ lit "/*filepath" then fail
      else
        r.GET path (zipper (fun req ps =>
          fileServer { req with URLPath := ps.ByName "filepath" }))

/-- The calls `authRequest` makes when the route asks for authentication. -/
def authCalls (env : Env) (auth : Bool) (r : Request) : List Call :=
  if auth then (authRequest env r).1 else []

/-! ## Concrete inputs -/

/-- A handler that writes its own 200 response and then asks for a 201 envelope. -/
def loudHandler : contextFunc := fun _ _ =>
  { calls := [.WriteHeader 200, .Write (.text "hello")], code := 201, msg := "made",
    res := .value "job" }

/-- A validator that knows the single token "good". -/
def oneToken : String → Option session := fun tok =>
  if tok = "good" then some { token := "good", lastActive := 7, user := "ann" } else none

def envSecret : Env :=
  { AdminToken := "secret", goodToken := oneToken, seshLifetime := 3600, nowSesh := 1000,
    nowCookie := 1001 }

/-- The environment `main` sets up when the `-admin` flag is left at its default "". -/
def envDefault : Env :=
  { AdminToken := "", goodToken := oneToken, seshLifetime := 3600, nowSesh := 1000,
    nowCookie := 1001 }

/-- A request with an empty `X-Floe-Auth` value and an empty `floe-sesh` cookie. -/
def reqEmpty : Request :=
  { Header := ⟨[("X-Floe-Auth", [""])]⟩,
    Cookies := [{ Name := "theme", Value := "dark" }, { Name := "floe-sesh", Value := "" }] }

/-- A request whose cookie carries an unknown token and that accepts gzip. -/
def reqStale : Request :=
  { Header := ⟨[("Accept-Encoding", ["gzip, deflate"])]⟩,
    Cookies := [{ Name := "floe-sesh", Value := "stale" }] }

/-- A request presenting the token "secret" in the `X-Floe-Auth` header. -/
def reqAdmin : Request :=
  { Header := ⟨[("X-Floe-Auth", ["secret"])]⟩,
    Cookies := [{ Name := "floe-sesh", Value := "stale" }] }

/-- A request presenting the token "good" in the `floe-sesh` cookie. -/
def reqGood : Request :=
  { Cookies := [{ Name := "floe-sesh", Value := "good" }] }

/-- A handler that returns a channel as payload of a plain 200 result. -/
def chanHandler : contextFunc := fun _ _ =>
  { calls := [], code := 200, msg := "", res := .unsupported "json: unsupported type: chan int" }

/-- A handler that returns the list of flows with no message. -/
def flowsHandler : contextFunc := fun _ _ =>
  { calls := [], code := 200, msg := "", res := .value "flows" }

/-- A handler that returns the status code 7 with an encodable payload. -/
def oddHandler : contextFunc := fun _ _ =>
  { calls := [], code := 7, msg := "odd", res := .value "job" }

/-- A router with no route yet whose tree takes every route. -/
def openRouter : Router :=
  { routes := [], addRoute := fun _ _ _ => none }

/-- A raw trigger handler that answers 202 with its own body. -/
def hookHandle : Handle := fun _ _ =>
  [.WriteHeader 202, .Write (.text "queued")]

/-! ## Lemmas on call lists -/

theorem statusLines_append (a b : List Call) :
    statusLines (a ++ b) = statusLines a ++ statusLines b := by
  induction a with
  | nil => rfl
  | cons c cs ih => cases c <;> simp [statusLines, ih]

theorem bodyWrites_append (a b : List Call) :
    bodyWrites (a ++ b) = bodyWrites a ++ bodyWrites b := by
  induction a with
  | nil => rfl
  | cons c cs ih => cases c <;> simp [bodyWrites, ih]

theorem cookiesSet_append (a b : List Call) :
    cookiesSet (a ++ b) = cookiesSet a ++ cookiesSet b := by
  induction a with
  | nil => rfl
  | cons c cs ih => cases c <;> simp [cookiesSet, ih]

theorem headerCalls_append (a b : List Call) :
    headerCalls (a ++ b) = headerCalls a ++ headerCalls b := by
  induction a with
  | nil => rfl
  | cons c cs ih => cases c <;> simp [headerCalls, ih]

theorem headerCalls_idem (a : List Call) : headerCalls (headerCalls a) = headerCalls a := by
  induction a with
  | nil => rfl
  | cons c cs ih => cases c <;> simp [headerCalls, ih]

theorem statusLines_headerCalls (a : List Call) :
    statusLines (headerCalls a) = statusLines a := by
  induction a with
  | nil => rfl
  | cons c cs ih => cases c <;> simp [statusLines, headerCalls, ih]

theorem cookiesSet_headerCalls (a : List Call) :
    cookiesSet (headerCalls a) = cookiesSet a := by
  induction a with
  | nil => rfl
  | cons c cs ih => cases c <;> simp [cookiesSet, headerCalls, ih]

theorem bodyWrites_headerCalls (a : List Call) : bodyWrites (headerCalls a) = [] := by
  induction a with
  | nil => rfl
  | cons c cs ih => cases c <;> simp [bodyWrites, headerCalls, ih]

theorem statusLines_cors (r : Request) : statusLines (cors r) = [] := rfl

theorem bodyWrites_cors (r : Request) : bodyWrites (cors r) = [] := rfl

theorem cookiesSet_cors (r : Request) : cookiesSet (cors r) = [] := rfl

/-- The status lines of a route wrapped by `zipper` are those of the wrapped handler. -/
theorem statusLines_zipper (fn : Handle) (r : Request) (ps : Params) :
    statusLines (zipper fn r ps) = statusLines (fn r ps) := by
  unfold zipper
  split
  · rfl
  · simp [gzipResponseWriter, statusLines_append, statusLines_headerCalls, statusLines]

/-- The writes of a route wrapped by `zipper`: one gzip stream of the wrapped
handler's writes when gzip is negotiated, the handler's writes otherwise. -/
theorem bodyWrites_zipper (fn : Handle) (r : Request) (ps : Params) :
    bodyWrites (zipper fn r ps) =
      if Contains (r.Header.Get "Accept-Encoding") "gzip" = true
      then [Bytes.gzip (bodyWrites (fn r ps))] else bodyWrites (fn r ps) := by
  unfold zipper
  by_cases hz : Contains (r.Header.Get "Accept-Encoding") "gzip" = true
  · simp [hz, gzipResponseWriter, bodyWrites_append, bodyWrites_headerCalls, bodyWrites]
  · simp [hz]

theorem cookiesSet_zipper (fn : Handle) (r : Request) (ps : Params) :
    cookiesSet (zipper fn r ps) = cookiesSet (fn r ps) := by
  unfold zipper
  split
  · rfl
  · simp [gzipResponseWriter, cookiesSet_append, cookiesSet_headerCalls, cookiesSet]

/-! ## Lemmas on the session resolver -/

theorem WriteHeaderPanic_valid (wrote : Bool) (code : Int) (hlo : 100 ≤ code)
    (hhi : code ≤ 999) : WriteHeaderPanic wrote code = none := by
  have h : ¬ (code < 100 ∨ code > 999) := by omega
  cases wrote <;> simp [WriteHeaderPanic, h]

theorem jsonResp_ok (wrote : Bool) (code : Int) (r : renderable)
    (h : marshalError r = none) (hp : WriteHeaderPanic wrote code = none) :
    jsonResp wrote code r =
      { calls := [.WriteHeader code, .Write (.json r)], panic := none } := by
  simp [jsonResp, MarshalIndent, h, writeResp, hp]

theorem jsonResp_fail (wrote : Bool) (code : Int) (r : renderable) (err : String)
    (h : marshalError r = some err) :
    jsonResp wrote code r =
      { calls := [.WriteHeader 500,
          .Write (.text ("\x7b\"Status\": \"Fail\", \"Payload\": \"" ++ err ++ "\"\x7d"))],
        panic := none } := by
  have hp : WriteHeaderPanic wrote 500 = none :=
    WriteHeaderPanic_valid wrote 500 (by decide) (by decide)
  simp [jsonResp, MarshalIndent, h, writeResp, hp]

/-- With a status code in 100..999 `jsonResp` does the same whether or not the
header is already written, and does not panic. -/
theorem jsonResp_valid (wrote : Bool) (code : Int) (r : renderable) (hlo : 100 ≤ code)
    (hhi : code ≤ 999) :
    jsonResp wrote code r = jsonResp false code r ∧ (jsonResp wrote code r).panic = none := by
  have h1 := WriteHeaderPanic_valid wrote code hlo hhi
  have h2 := WriteHeaderPanic_valid false code hlo hhi
  have h3 := WriteHeaderPanic_valid wrote 500 (by decide) (by decide)
  have h4 := WriteHeaderPanic_valid false 500 (by decide) (by decide)
  unfold jsonResp writeResp
  cases MarshalIndent r <;> simp [h1, h2, h3, h4]

theorem jsonResp_invalid (code : Int) (r : renderable) (h : marshalError r = none)
    (hc : code < 100 ∨ code > 999) :
    jsonResp false code r =
      { calls := [.WriteHeader code], panic := some (.invalidWriteHeader code) } := by
  simp [jsonResp, MarshalIndent, h, writeResp, WriteHeaderPanic, hc]

theorem cookiesSet_jsonResp (wrote : Bool) (code : Int) (r : renderable) :
    cookiesSet (jsonResp wrote code r).calls = [] := by
  unfold jsonResp writeResp
  cases MarshalIndent r <;> dsimp only <;> split <;> rfl

theorem jsonResp_wrapper_nil (m : String) :
    (jsonResp false 401 (.wrapper m .nil)).calls =
      [.WriteHeader 401, .Write (.json (.wrapper m .nil))] := by
  rw [jsonResp_ok false 401 (.wrapper m .nil) rfl
    (WriteHeaderPanic_valid _ _ (by decide) (by decide))]

theorem authRequest_empty (env : Env) (r : Request) (h : resolveTok r = "") :
    authRequest env r =
      ([.WriteHeader 401, .Write (.json (.wrapper "missing session" .nil))], none) := by
  simp [authRequest, h, jsonResp_wrapper_nil, rUnauth]

theorem authRequest_admin (env : Env) (r : Request) (h : resolveTok r ≠ "")
    (ha : resolveTok r = env.AdminToken) :
    authRequest env r =
      (setCookie env (resolveTok r),
        some { token := resolveTok r, lastActive := env.nowSesh, user := "Admin" }) := by
  simp [authRequest, h, ← ha]

theorem authRequest_invalid (env : Env) (r : Request) (h : resolveTok r ≠ "")
    (ha : resolveTok r ≠ env.AdminToken) (hg : env.goodToken (resolveTok r) = none) :
    authRequest env r =
      ([.WriteHeader 401, .Write (.json (.wrapper "invalid session" .nil))], none) := by
  simp [authRequest, h, ha, hg, jsonResp_wrapper_nil, rUnauth]

theorem authRequest_valid (env : Env) (r : Request) (s : session) (h : resolveTok r ≠ "")
    (ha : resolveTok r ≠ env.AdminToken) (hg : env.goodToken (resolveTok r) = some s) :
    authRequest env r = (setCookie env (resolveTok r), some s) := by
  simp [authRequest, h, ha, hg]

/-- Whenever `authRequest` returns a session the only call it made is `setCookie`. -/
theorem authRequest_some (env : Env) (r : Request) (s : session)
    (h : (authRequest env r).2 = some s) :
    (authRequest env r).1 = setCookie env (resolveTok r) ∧ resolveTok r ≠ "" := by
  by_cases h0 : resolveTok r = ""
  · rw [authRequest_empty env r h0] at h
    cases h
  · refine ⟨?_, h0⟩
    by_cases ha : resolveTok r = env.AdminToken
    · rw [authRequest_admin env r h0 ha]
    · cases hg : env.goodToken (resolveTok r) with
      | none =>
        rw [authRequest_invalid env r h0 ha hg] at h
        cases h
      | some t => rw [authRequest_valid env r t h0 ha hg]

/-- The token is empty when the header yields nothing and the cookie, if there is
one, has an empty value. -/
theorem resolveTok_empty (r : Request) (hh : r.Header.Get "X-Floe-Auth" = "")
    (hc : ∀ c, r.Cookie cookieName = .ok c → c.Value = "") : resolveTok r = "" := by
  unfold resolveTok
  simp only [hh, if_true]
  cases hk : r.Cookie cookieName with
  | error e => rfl
  | ok c => exact hc c hk

/-! ## Lemmas on the dispatch closure -/

theorem dispatch_ctx (h : handler) (f : contextFunc) (pre : List Call)
    (sesh : Option session) (r : Request) (ps : Params) :
    (h.dispatch f pre sesh r ps).ctx = some { ps := ps, sesh := sesh, hub := h.hub } := by
  unfold handler.dispatch
  dsimp only
  split <;> rfl

theorem dispatch_zero (h : handler) (f : contextFunc) (pre : List Call)
    (sesh : Option session) (r : Request) (ps : Params)
    (hz : (f r { ps := ps, sesh := sesh, hub := h.hub }).code = 0) :
    (h.dispatch f pre sesh r ps).calls =
      pre ++ (f r { ps := ps, sesh := sesh, hub := h.hub }).calls := by
  unfold handler.dispatch
  simp [hz]

theorem dispatch_nonzero (h : handler) (f : contextFunc) (pre : List Call)
    (sesh : Option session) (r : Request) (ps : Params)
    (hz : (f r { ps := ps, sesh := sesh, hub := h.hub }).code ≠ 0) :
    (h.dispatch f pre sesh r ps).calls =
      pre ++ (f r { ps := ps, sesh := sesh, hub := h.hub }).calls
        ++ (jsonResp (wroteHeader (pre ++ (f r { ps := ps, sesh := sesh, hub := h.hub }).calls))
            (f r { ps := ps, sesh := sesh, hub := h.hub }).code
            (.wrapper
              (if (f r { ps := ps, sesh := sesh, hub := h.hub }).msg = ""
                  ∧ (f r { ps := ps, sesh := sesh, hub := h.hub }).code = rOK
               then "OK" else (f r { ps := ps, sesh := sesh, hub := h.hub }).msg)
              (f r { ps := ps, sesh := sesh, hub := h.hub }).res)).calls
      ∧ (h.dispatch f pre sesh r ps).panic =
        (jsonResp (wroteHeader (pre ++ (f r { ps := ps, sesh := sesh, hub := h.hub }).calls))
            (f r { ps := ps, sesh := sesh, hub := h.hub }).code
            (.wrapper
              (if (f r { ps := ps, sesh := sesh, hub := h.hub }).msg = ""
                  ∧ (f r { ps := ps, sesh := sesh, hub := h.hub }).code = rOK
               then "OK" else (f r { ps := ps, sesh := sesh, hub := h.hub }).msg)
              (f r { ps := ps, sesh := sesh, hub := h.hub }).res)).panic := by
  unfold handler.dispatch
  simp [hz]

/-- When the closure reaches the business handler it is the dispatch of lines
162-183 after `cors` and, on an authenticated route, the cookie refresh. -/
theorem fn_reaches (h : handler) (env : Env) (f : contextFunc) (auth : Bool)
    (r : Request) (ps : Params) (c : context)
    (hreach : (h.fn env (some f) auth r ps).ctx = some c) :
    h.fn env (some f) auth r ps = h.dispatch f (cors r ++ authCalls env auth r) c.sesh r ps
      ∧ c = { ps := ps, sesh := c.sesh, hub := h.hub }
      ∧ c.sesh = (if auth then (authRequest env r).2 else none)
      ∧ statusLines (authCalls env auth r) = []
      ∧ bodyWrites (authCalls env auth r) = [] := by
  cases auth with
  | false =>
    have hfn : h.fn env (some f) false r ps = h.dispatch f (cors r) none r ps := rfl
    rw [hfn, dispatch_ctx] at hreach
    cases hreach
    exact ⟨by simp [hfn, authCalls], rfl, rfl, rfl, rfl⟩
  | true =>
    cases hq : authRequest env r with
    | mk a o =>
      cases o with
      | none =>
        have hfn : h.fn env (some f) true r ps =
            { calls := cors r ++ a, ctx := none, panic := none } := by
          simp [handler.fn, hq]
        rw [hfn] at hreach
        cases hreach
      | some s =>
        have hfn : h.fn env (some f) true r ps = h.dispatch f (cors r ++ a) (some s) r ps := by
          simp [handler.fn, hq]
        rw [hfn, dispatch_ctx] at hreach
        cases hreach
        have hs : (authRequest env r).2 = some s := by rw [hq]
        have ha : a = setCookie env (resolveTok r) := by
          have := (authRequest_some env r s hs).1
          rw [hq] at this
          exact this
        refine ⟨by simp [hfn, authCalls, hq], rfl, by simp, ?_, ?_⟩
        · simp [authCalls, hq, ha, setCookie, statusLines]
        · simp [authCalls, hq, ha, setCookie, bodyWrites]

/-! ## Lemmas on the static mount -/

theorem sliceFrom_tail (path : GoString) (hl : 10 ≤ path.length) :
    sliceFrom path ((path.length : Int) - 10) = .ok (path.drop (path.length - 10)) := by
  have h1 : ¬ ((path.length : Int) - 10 < 0 ∨ (path.length : Int) < (path.length : Int) - 10) := by
    omega
  have h2 : ((path.length : Int) - 10).toNat = path.length - 10 := by omega
  simp only [sliceFrom, h1, if_false, h2]

theorem drop_eq_wildcard (path : GoString) :
    (path.drop (path.length - 10) = lit "/*filepath" ↔ lit "/*filepath" <:+ path) := by
  have hlen : (lit "/*filepath").length = 10 := by decide
  rw [List.suffix_iff_eq_drop, hlen]
  exact eq_comm

/-- With the suffix present `serveFiles` ends in the call of `r.GET`. -/
theorem serveFiles_suffix (r : Router) (path : GoString) (fileServer : Request → List Call)
    (hs : lit "/*filepath" <:+ path) :
    serveFiles r path fileServer =
      r.GET path (zipper (fun req ps =>
        fileServer { req with URLPath := ps.ByName "filepath" })) := by
  have hlen : (lit "/*filepath").length = 10 := by decide
  have hl : 10 ≤ path.length := by
    have := hs.length_le
    omega
  have h1 : ¬ ((path.length : Int) < 10) := by omega
  have h3 : path.drop (path.length - 10) = lit "/*filepath" := (drop_eq_wildcard path).2 hs
  simp only [serveFiles, h1, if_false, sliceFrom_tail path hl, h3, ne_eq, not_true_eq_false]

/-- Without the suffix `serveFiles` panics before it reaches `r.GET`. -/
theorem serveFiles_no_suffix (r : Router) (path : GoString)
    (fileServer : Request → List Call) (hs : ¬ (lit "/*filepath" <:+ path)) :
    serveFiles r path fileServer =
      .error (.message (lit "path must end with /*filepath in path '" ++ path ++ lit "'")) := by
  by_cases hl : path.length < 10
  · have h1 : (path.length : Int) < 10 := by omega
    simp only [serveFiles, h1, if_true]
  · have h1 : ¬ ((path.length : Int) < 10) := by omega
    have h3 : path.drop (path.length - 10) ≠ lit "/*filepath" := fun h =>
      hs ((drop_eq_wildcard path).1 h)
    simp only [serveFiles, h1, if_false, sliceFrom_tail path (by omega), ne_eq, h3,
      not_false_eq_true, if_true]

theorem routerGET_slashless (r : Router) (path : GoString) (handle : Handle)
    (h : path.head? ≠ some 47) :
    r.GET path handle =
      .error (.message (lit "path must begin with '/' in path '" ++ path ++ lit "'")) := by
  simp [Router.GET, Router.Handle, h]

theorem routerGET_accepts (r : Router) (path : GoString) (handle : Handle)
    (h1 : path.head? = some 47) (h2 : r.addRoute r.routes "GET" path = none) :
    r.GET path handle =
      .ok { r with
        routes := r.routes ++ [{ method := "GET", path := path, handle := handle }] } := by
  have hl : ¬ (path.length < 1) := by
    cases path with
    | nil => cases h1
    | cons a t => simp
  simp [Router.GET, Router.Handle, h1, h2, hl]

theorem routerGET_ok (r : Router) (path : GoString) (handle : Handle) (r' : Router)
    (h : r.GET path handle = .ok r') :
    path.head? = some 47 ∧ r.addRoute r.routes "GET" path = none
      ∧ r'.routes = r.routes ++ [{ method := "GET", path := path, handle := handle }] := by
  by_cases h1 : path.head? = some 47
  · cases h2 : r.addRoute r.routes "GET" path with
    | none =>
      rw [routerGET_accepts r path handle h1 h2] at h
      cases h
      exact ⟨h1, rfl, rfl⟩
    | some msg =>
      have hl : ¬ (path.length < 1) := by
        cases path with
        | nil => cases h1
        | cons a t => simp
      simp [Router.GET, Router.Handle, h1, h2, hl] at h
  · rw [routerGET_slashless r path handle h1] at h
    cases h

theorem routerGET_ne_sliceBounds (r : Router) (path : GoString) (handle : Handle) :
    r.GET path handle ≠ .error .sliceBounds := by
  unfold Router.GET Router.Handle
  split
  · intro hc
    cases hc
  · split <;> intro hc <;> cases hc

/-! ## Claims -/

/-- C1: on a route built by `mw` with `auth = true`, a request whose `X-Floe-Auth`
header yields no value and whose `floe-sesh` cookie is absent or empty gets status
401 and the envelope with Message "missing session" (as one gzip stream when gzip is
negotiated); `authRequest` returns no session and the business handler is not
called, whatever it is. -/
theorem missing_session_unauthorized (h : handler) (env : Env) (f : contextFunc)
    (r : Request) (ps : Params)
    (hh : r.Header.Get "X-Floe-Auth" = "")
    (hc : ∀ c, r.Cookie cookieName = .ok c → c.Value = "") :
    authRequest env r =
        ([.WriteHeader 401, .Write (.json (.wrapper "missing session" .nil))], none)
      ∧ (h.fn env (some f) true r ps).ctx = none
      ∧ (h.fn env (some f) true r ps).calls =
          cors r ++ [.WriteHeader 401, .Write (.json (.wrapper "missing session" .nil))]
      ∧ statusLines (h.mw env (some f) true r ps) = [401]
      ∧ bodyWrites (h.mw env (some f) true r ps) =
          (if Contains (r.Header.Get "Accept-Encoding") "gzip" = true
           then [.gzip [.json (.wrapper "missing session" .nil)]]
           else [.json (.wrapper "missing session" .nil)])
      ∧ cookiesSet (h.mw env (some f) true r ps) = [] := by
  have ha := authRequest_empty env r (resolveTok_empty r hh hc)
  have hfn : h.fn env (some f) true r ps =
      { calls := cors r ++ [.WriteHeader 401, .Write (.json (.wrapper "missing session" .nil))],
        ctx := none, panic := none } := by
    simp [handler.fn, ha]
  refine ⟨ha, by rw [hfn], by rw [hfn], ?_, ?_, ?_⟩
  · simp [handler.mw, statusLines_zipper, hfn, statusLines_append, statusLines_cors,
      statusLines]
  · simp [handler.mw, bodyWrites_zipper, hfn, bodyWrites_append, bodyWrites_cors, bodyWrites]
  · simp [handler.mw, cookiesSet_zipper, hfn, cookiesSet_append, cookiesSet_cors, cookiesSet]

/-- Witness of C1: a request with an empty header value and an empty cookie, on a
route whose handler would write a response of its own. -/
theorem missing_session_unauthorized_witness :
    (handler.fn ⟨⟨1⟩⟩ envSecret (some loudHandler) true reqEmpty []).ctx = none
      ∧ statusLines (handler.mw ⟨⟨1⟩⟩ envSecret (some loudHandler) true reqEmpty []) = [401] :=
  have w := missing_session_unauthorized ⟨⟨1⟩⟩ envSecret loudHandler reqEmpty []
    (by decide)
    (by
      intro c hc
      simp [Request.Cookie, reqEmpty, cookieName, List.find?] at hc
      rw [← hc])
  ⟨w.2.1, w.2.2.2.1⟩

/-- C2: on a route built by `mw` with `auth = true`, a request whose token (header,
else cookie) is non-empty, differs from `AdminToken` and is rejected by `goodToken`
gets status 401 and the envelope with Message "invalid session" (as one gzip stream
when gzip is negotiated); `authRequest` returns no session and the business handler
is not called, whatever it is. -/
theorem invalid_session_unauthorized (h : handler) (env : Env) (f : contextFunc)
    (r : Request) (ps : Params)
    (ht : resolveTok r ≠ "")
    (ha : resolveTok r ≠ env.AdminToken)
    (hg : env.goodToken (resolveTok r) = none) :
    authRequest env r =
        ([.WriteHeader 401, .Write (.json (.wrapper "invalid session" .nil))], none)
      ∧ (h.fn env (some f) true r ps).ctx = none
      ∧ (h.fn env (some f) true r ps).calls =
          cors r ++ [.WriteHeader 401, .Write (.json (.wrapper "invalid session" .nil))]
      ∧ statusLines (h.mw env (some f) true r ps) = [401]
      ∧ bodyWrites (h.mw env (some f) true r ps) =
          (if Contains (r.Header.Get "Accept-Encoding") "gzip" = true
           then [.gzip [.json (.wrapper "invalid session" .nil)]]
           else [.json (.wrapper "invalid session" .nil)])
      ∧ cookiesSet (h.mw env (some f) true r ps) = [] := by
  have ha := authRequest_invalid env r ht ha hg
  have hfn : h.fn env (some f) true r ps =
      { calls := cors r ++ [.WriteHeader 401, .Write (.json (.wrapper "invalid session" .nil))],
        ctx := none, panic := none } := by
    simp [handler.fn, ha]
  refine ⟨ha, by rw [hfn], by rw [hfn], ?_, ?_, ?_⟩
  · simp [handler.mw, statusLines_zipper, hfn, statusLines_append, statusLines_cors,
      statusLines]
  · simp [handler.mw, bodyWrites_zipper, hfn, bodyWrites_append, bodyWrites_cors, bodyWrites]
  · simp [handler.mw, cookiesSet_zipper, hfn, cookiesSet_append, cookiesSet_cors, cookiesSet]

/-- Witness of C2: a stale cookie token on a gzip request. -/
theorem invalid_session_unauthorized_witness :
    (handler.fn ⟨⟨1⟩⟩ envSecret (some loudHandler) true reqStale []).ctx = none
      ∧ statusLines (handler.mw ⟨⟨1⟩⟩ envSecret (some loudHandler) true reqStale []) = [401]
      ∧ bodyWrites (handler.mw ⟨⟨1⟩⟩ envSecret (some loudHandler) true reqStale []) =
          [.gzip [.json (.wrapper "invalid session" .nil)]] :=
  have w := invalid_session_unauthorized ⟨⟨1⟩⟩ envSecret loudHandler reqStale []
    (by decide) (by decide) (by decide)
  ⟨w.2.1, w.2.2.2.1, by simpa using w.2.2.2.2.1⟩

/-- C3 as stated fails: with `AdminToken` left at its default "" a request whose
token is the empty string has a token equal to `AdminToken`, yet `authRequest`
answers 401 "missing session" and returns no session. -/
theorem admin_token_empty_counterexample :
    resolveTok reqEmpty = envDefault.AdminToken
      ∧ (authRequest envDefault reqEmpty).2 = none
      ∧ (authRequest envDefault reqEmpty).1 =
          [.WriteHeader 401, .Write (.json (.wrapper "missing session" .nil))]
      ∧ ¬ ∃ s, (authRequest envDefault reqEmpty).2 = some s ∧ s.user = "Admin" := by
  have h0 : resolveTok reqEmpty = "" := by decide
  have ha := authRequest_empty envDefault reqEmpty h0
  refine ⟨by decide, by rw [ha], by rw [ha], ?_⟩
  rintro ⟨s, hs, _⟩
  rw [ha] at hs
  cases hs

/-- C3 (amended): for every `AdminToken` and every request whose token (header,
else cookie) is non-empty and equals it, `authRequest` returns the session with
that token and user "Admin", after refreshing the cookie, and the outcome is the
same for every validator `goodToken`. -/
theorem admin_token_session (env : Env) (r : Request)
    (ht : resolveTok r ≠ "") (ha : resolveTok r = env.AdminToken) :
    (authRequest env r).2 =
        some { token := resolveTok r, lastActive := env.nowSesh, user := "Admin" }
      ∧ (∀ s, (authRequest env r).2 = some s → s.user = "Admin" ∧ s.token = resolveTok r)
      ∧ ∀ g : String → Option session,
          authRequest { env with goodToken := g } r = authRequest env r := by
  have h1 := authRequest_admin env r ht ha
  refine ⟨by rw [h1], ?_, ?_⟩
  · intro s hs
    rw [h1] at hs
    cases hs
    exact ⟨rfl, rfl⟩
  · intro g
    rw [h1]
    exact authRequest_admin { env with goodToken := g } r ht ha

/-- Witness of C3 (amended): the admin token in the header, with a validator that
does not know it. -/
theorem admin_token_session_witness :
    (authRequest envSecret reqAdmin).2 =
        some { token := "secret", lastActive := 1000, user := "Admin" }
      ∧ authRequest { envSecret with goodToken := fun _ => none } reqAdmin =
          authRequest envSecret reqAdmin :=
  have w := admin_token_session envSecret reqAdmin (by decide) (by decide)
  ⟨w.1, w.2.2 (fun _ => none)⟩

/-- C4: for every request and every `AdminToken`, the empty string included, an
empty token yields no session; a session obtained on the admin-token match carries
the request's token, which is not empty; and if the validator hands out only
sessions with a non-empty token, so does `authRequest`. -/
theorem session_token_nonempty (env : Env) (r : Request) :
    (resolveTok r = "" → (authRequest env r).2 = none)
      ∧ (∀ s, (authRequest env r).2 = some s → resolveTok r = env.AdminToken →
          s.token = resolveTok r ∧ s.token ≠ "")
      ∧ ((∀ t s, env.goodToken t = some s → s.token ≠ "") →
          ∀ s, (authRequest env r).2 = some s → s.token ≠ "") := by
  refine ⟨?_, ?_, ?_⟩
  · intro h0
    rw [authRequest_empty env r h0]
  · intro s hs ha
    have h0 := (authRequest_some env r s hs).2
    rw [authRequest_admin env r h0 ha] at hs
    cases hs
    exact ⟨rfl, h0⟩
  · intro hg s hs
    have h0 := (authRequest_some env r s hs).2
    by_cases ha : resolveTok r = env.AdminToken
    · rw [authRequest_admin env r h0 ha] at hs
      cases hs
      exact h0
    · cases hv : env.goodToken (resolveTok r) with
      | none =>
        rw [authRequest_invalid env r h0 ha hv] at hs
        cases hs
      | some t =>
        rw [authRequest_valid env r t h0 ha hv] at hs
        cases hs
        exact hg _ _ hv

/-- Witness of C4: the empty token under the empty `AdminToken`, and the admin
session under a non-empty one. -/
theorem session_token_nonempty_witness :
    (authRequest envDefault reqEmpty).2 = none
      ∧ ((⟨"secret", 1000, "Admin"⟩ : session).token = resolveTok reqAdmin
          ∧ (⟨"secret", 1000, "Admin"⟩ : session).token ≠ "") :=
  ⟨(session_token_nonempty envDefault reqEmpty).1 (by decide),
   (session_token_nonempty envSecret reqAdmin).2.1 ⟨"secret", 1000, "Admin"⟩
     (by decide) (by decide)⟩

/-- C5: whenever `authRequest` returns a session, the one call it makes on the
response is `http.SetCookie` with the cookie named "floe-sesh", the resolved token
as value (the header value when the header yields one, else the cookie value), path
"/" and expiry `time.Now() + seshLifetime`; the expiry exceeds that time reading by
`seshLifetime`, and the cookie is the first one set on the route's response. -/
theorem auth_success_refreshes_cookie (h : handler) (env : Env) (f : contextFunc)
    (r : Request) (ps : Params) (s : session)
    (hs : (authRequest env r).2 = some s) :
    (authRequest env r).1 =
        [.SetCookie { Name := "floe-sesh", Value := resolveTok r,
                      Expires := env.nowCookie + env.seshLifetime, Path := "/" }]
      ∧ (env.nowCookie + env.seshLifetime) - env.nowCookie = env.seshLifetime
      ∧ (r.Header.Get "X-Floe-Auth" ≠ "" → resolveTok r = r.Header.Get "X-Floe-Auth")
      ∧ (r.Header.Get "X-Floe-Auth" = "" →
          ∀ c, r.Cookie cookieName = .ok c → resolveTok r = c.Value)
      ∧ cookiesSet (h.mw env (some f) true r ps) =
          { Name := "floe-sesh", Value := resolveTok r,
            Expires := env.nowCookie + env.seshLifetime, Path := "/" }
            :: cookiesSet (f r { ps := ps, sesh := some s, hub := h.hub }).calls := by
  have h1 := (authRequest_some env r s hs).1
  have hq : authRequest env r = (setCookie env (resolveTok r), some s) := by
    rw [← h1, ← hs]
  refine ⟨h1, by omega, ?_, ?_, ?_⟩
  · intro hh
    simp [resolveTok, hh]
  · intro hh c hc
    simp [resolveTok, hh, hc]
  · have hfn : h.fn env (some f) true r ps =
        h.dispatch f (cors r ++ setCookie env (resolveTok r)) (some s) r ps := by
      simp [handler.fn, hq]
    simp only [handler.mw, cookiesSet_zipper, hfn]
    by_cases hz : (f r { ps := ps, sesh := some s, hub := h.hub }).code = 0
    · rw [dispatch_zero h f _ _ r ps hz]
      simp [cookiesSet_append, cookiesSet_cors, setCookie, cookiesSet, cookieName]
    · rw [(dispatch_nonzero h f _ _ r ps hz).1]
      simp [cookiesSet_append, cookiesSet_cors, cookiesSet_jsonResp, setCookie, cookiesSet,
        cookieName]

/-- Witness of C5: a valid cookie token is written back with the new expiry. -/
theorem auth_success_refreshes_cookie_witness :
    (authRequest envSecret reqGood).1 =
      [.SetCookie { Name := "floe-sesh", Value := "good", Expires := 4601, Path := "/" }] :=
  (auth_success_refreshes_cookie ⟨⟨1⟩⟩ envSecret flowsHandler reqGood []
    ⟨"good", 7, "ann"⟩ (by decide)).1

/-- C6 as stated fails, in two ways. A handler result (200, "", payload) whose
payload `json.MarshalIndent` rejects reaches the handler with code 200, yet the
response gets status 500 and the fallback body, not an envelope with status 200. A
handler result (7, "odd", payload) with an encodable payload makes `WriteHeader(7)`
panic, so that no envelope is written at all. -/
theorem rendered_result_counterexample :
    (handler.fn ⟨⟨1⟩⟩ envSecret (some chanHandler) false {} []).ctx =
        some { ps := [], sesh := none, hub := ⟨1⟩ }
      ∧ (chanHandler {} { ps := [], sesh := none, hub := ⟨1⟩ }).code = 200
      ∧ statusLines (handler.mw ⟨⟨1⟩⟩ envSecret (some chanHandler) false {} []) = [500]
      ∧ bodyWrites (handler.mw ⟨⟨1⟩⟩ envSecret (some chanHandler) false {} []) =
          [.text "\x7b\"Status\": \"Fail\", \"Payload\": \"json: unsupported type: chan int\"\x7d"]
      ∧ statusLines (handler.mw ⟨⟨1⟩⟩ envSecret (some chanHandler) false {} []) ≠ [200]
      ∧ (handler.fn ⟨⟨1⟩⟩ envSecret (some oddHandler) false {} []).ctx =
          some { ps := [], sesh := none, hub := ⟨1⟩ }
      ∧ (oddHandler {} { ps := [], sesh := none, hub := ⟨1⟩ }).code = 7
      ∧ marshalError (oddHandler {} { ps := [], sesh := none, hub := ⟨1⟩ }).res = none
      ∧ (handler.fn ⟨⟨1⟩⟩ envSecret (some oddHandler) false {} []).panic =
          some (.invalidWriteHeader 7)
      ∧ bodyWrites (handler.mw ⟨⟨1⟩⟩ envSecret (some oddHandler) false {} []) = [] := by
  refine ⟨rfl, rfl, by decide, rfl, by decide, rfl, rfl, rfl, by decide, rfl⟩

/-- C6 (amended): for every handler result (code, message, payload) with a status
code in 100..999 whose payload `json.MarshalIndent` accepts, on a request that
reaches the handler, the closure does not panic and writes after the handler's own
calls exactly one status line `code` and one envelope with that payload, whose
Message is "OK" when `code = 200` and `message = ""` and is `message` otherwise; a
result (200, "", payload) yields the envelope with Message "OK" and that payload. -/
theorem rendered_result_envelope (h : handler) (env : Env) (f : contextFunc) (auth : Bool)
    (r : Request) (ps : Params) (c : context)
    (hreach : (h.fn env (some f) auth r ps).ctx = some c)
    (hlo : 100 ≤ (f r c).code) (hhi : (f r c).code ≤ 999)
    (hm : marshalError (f r c).res = none) :
    (h.fn env (some f) auth r ps).calls =
        cors r ++ authCalls env auth r ++ (f r c).calls
          ++ [.WriteHeader (f r c).code,
              .Write (.json (.wrapper
                (if (f r c).code = 200 ∧ (f r c).msg = "" then "OK" else (f r c).msg)
                (f r c).res))]
      ∧ statusLines (h.mw env (some f) auth r ps) = statusLines (f r c).calls ++ [(f r c).code]
      ∧ bodyWrites (h.mw env (some f) auth r ps) =
          (if Contains (r.Header.Get "Accept-Encoding") "gzip" = true
           then [.gzip (bodyWrites (f r c).calls ++ [.json (.wrapper
                (if (f r c).code = 200 ∧ (f r c).msg = "" then "OK" else (f r c).msg)
                (f r c).res)])]
           else bodyWrites (f r c).calls ++ [.json (.wrapper
                (if (f r c).code = 200 ∧ (f r c).msg = "" then "OK" else (f r c).msg)
                (f r c).res)])
      ∧ ((f r c).code = 200 → (f r c).msg = "" →
          (h.fn env (some f) auth r ps).calls =
            cors r ++ authCalls env auth r ++ (f r c).calls
              ++ [.WriteHeader 200, .Write (.json (.wrapper "OK" (f r c).res))])
      ∧ (h.fn env (some f) auth r ps).panic = none := by
  obtain ⟨hfn, hc, -, hst, hbw⟩ := fn_reaches h env f auth r ps c hreach
  have he : ({ ps := ps, sesh := c.sesh, hub := h.hub } : context) = c := hc.symm
  have hcode : (f r c).code ≠ 0 := by omega
  have hmsg : (if (f r c).msg = "" ∧ (f r c).code = rOK then "OK" else (f r c).msg) =
      (if (f r c).code = 200 ∧ (f r c).msg = "" then "OK" else (f r c).msg) := by
    by_cases h1 : (f r c).msg = "" <;> by_cases h2 : (f r c).code = 200 <;> simp [h1, h2, rOK]
  have hd := dispatch_nonzero h f (cors r ++ authCalls env auth r) c.sesh r ps
    (by rw [he]; exact hcode)
  rw [he, hmsg, jsonResp_ok _ _ _ (by simpa [marshalError] using hm)
    (WriteHeaderPanic_valid _ _ hlo hhi)] at hd
  have hcalls : (h.fn env (some f) auth r ps).calls =
      cors r ++ authCalls env auth r ++ (f r c).calls
        ++ [.WriteHeader (f r c).code,
            .Write (.json (.wrapper
              (if (f r c).code = 200 ∧ (f r c).msg = "" then "OK" else (f r c).msg)
              (f r c).res))] := by
    rw [hfn, hd.1]
  refine ⟨hcalls, ?_, ?_, ?_, ?_⟩
  · simp [handler.mw, statusLines_zipper, hcalls, statusLines_append, statusLines_cors, hst,
      statusLines]
  · simp [handler.mw, bodyWrites_zipper, hcalls, bodyWrites_append, bodyWrites_cors, hbw,
      bodyWrites]
  · intro h2 h1
    rw [hcalls]
    simp [h1, h2]
  · rw [hfn, hd.2]

/-- Witness of C6 (amended): a (200, "", payload) result on an open route. -/
theorem rendered_result_envelope_witness :
    statusLines (handler.mw ⟨⟨1⟩⟩ envSecret (some flowsHandler) false {} []) = [200]
      ∧ bodyWrites (handler.mw ⟨⟨1⟩⟩ envSecret (some flowsHandler) false {} []) =
          [.json (.wrapper "OK" (.value "flows"))]
      ∧ (handler.fn ⟨⟨1⟩⟩ envSecret (some flowsHandler) false {} []).panic = none :=
  have w := rendered_result_envelope ⟨⟨1⟩⟩ envSecret flowsHandler false {} []
    { ps := [], sesh := none, hub := ⟨1⟩ } rfl (by decide) (by decide) rfl
  ⟨w.2.1, w.2.2.1, w.2.2.2.2⟩

/-- C7: when the handler returns code 0 on a request that reaches it, the closure
makes no call after the handler's: the status lines and the writes of the response
are exactly the handler's (the writes as one gzip stream when gzip is negotiated).
Every handler built by `adaptSub` returns code 0 after making the raw handler's
calls. -/
theorem delegated_result_untouched (h : handler) (env : Env) (f : contextFunc) (auth : Bool)
    (r : Request) (ps : Params) (c : context)
    (hreach : (h.fn env (some f) auth r ps).ctx = some c)
    (hcode : (f r c).code = 0) :
    (h.fn env (some f) auth r ps).calls = cors r ++ authCalls env auth r ++ (f r c).calls
      ∧ statusLines (h.fn env (some f) auth r ps).calls = statusLines (f r c).calls
      ∧ bodyWrites (h.fn env (some f) auth r ps).calls = bodyWrites (f r c).calls
      ∧ statusLines (h.mw env (some f) auth r ps) = statusLines (f r c).calls
      ∧ bodyWrites (h.mw env (some f) auth r ps) =
          (if Contains (r.Header.Get "Accept-Encoding") "gzip" = true
           then [.gzip (bodyWrites (f r c).calls)] else bodyWrites (f r c).calls)
      ∧ ∀ (hub : Hub) (handle : Handle) (req : Request) (ctx : context),
          (adaptSub hub handle req ctx).code = 0
            ∧ (adaptSub hub handle req ctx).calls = handle req ctx.ps := by
  obtain ⟨hfn, hc, -, hst, hbw⟩ := fn_reaches h env f auth r ps c hreach
  have he : ({ ps := ps, sesh := c.sesh, hub := h.hub } : context) = c := hc.symm
  have hcalls : (h.fn env (some f) auth r ps).calls =
      cors r ++ authCalls env auth r ++ (f r c).calls := by
    have hd := dispatch_zero h f (cors r ++ authCalls env auth r) c.sesh r ps
      (by rw [he]; exact hcode)
    rw [he] at hd
    rw [hfn, hd]
  refine ⟨hcalls, ?_, ?_, ?_, ?_, ?_⟩
  · simp [hcalls, statusLines_append, statusLines_cors, hst]
  · simp [hcalls, bodyWrites_append, bodyWrites_cors, hbw]
  · simp [handler.mw, statusLines_zipper, hcalls, statusLines_append, statusLines_cors, hst]
  · simp [handler.mw, bodyWrites_zipper, hcalls, bodyWrites_append, bodyWrites_cors, hbw]
  · intro hub handle req ctx
    exact ⟨rfl, rfl⟩

/-- Witness of C7: a raw trigger handler mounted through `adaptSub` on an
authenticated route, called with the admin token. -/
theorem delegated_result_untouched_witness :
    statusLines (handler.mw ⟨⟨1⟩⟩ envSecret (some (adaptSub ⟨1⟩ hookHandle)) true reqAdmin []) =
        [202]
      ∧ bodyWrites (handler.mw ⟨⟨1⟩⟩ envSecret (some (adaptSub ⟨1⟩ hookHandle)) true reqAdmin [])
          = [.text "queued"] :=
  have w := delegated_result_untouched ⟨⟨1⟩⟩ envSecret (adaptSub ⟨1⟩ hookHandle) true reqAdmin []
    { ps := [], sesh := some ⟨"secret", 1000, "Admin"⟩, hub := ⟨1⟩ } rfl rfl
  ⟨w.2.2.2.1, by simpa using w.2.2.2.2.1⟩

/-- C8: when the first `Accept-Encoding` value of the request contains "gzip",
`zipper` sets `Vary: Accept-Encoding` and `Content-Encoding: gzip`, passes the
wrapped handler's header calls on, and the writer receives no write but the one
gzip stream of all the handler's writes; otherwise `zipper` makes no call of its
own and the calls are exactly the wrapped handler's. -/
theorem zipper_negotiates_gzip (fn : Handle) (r : Request) (ps : Params) :
    (Contains (r.Header.Get "Accept-Encoding") "gzip" = true →
        zipper fn r ps =
            [.HeaderSet "Vary" "Accept-Encoding", .HeaderSet "Content-Encoding" "gzip"]
              ++ headerCalls (fn r ps) ++ [.Write (.gzip (bodyWrites (fn r ps)))]
          ∧ bodyWrites (zipper fn r ps) = [.gzip (bodyWrites (fn r ps))])
      ∧ (Contains (r.Header.Get "Accept-Encoding") "gzip" = false →
          zipper fn r ps = fn r ps)
      ∧ (r.Header.Get "Accept-Encoding" = "gzip" →
          bodyWrites (zipper fn r ps) = [.gzip (bodyWrites (fn r ps))]
            ∧ headerCalls (zipper fn r ps) =
                [.HeaderSet "Vary" "Accept-Encoding", .HeaderSet "Content-Encoding" "gzip"]
                  ++ headerCalls (fn r ps))
      ∧ (r.Header.values "Accept-Encoding" = [] → zipper fn r ps = fn r ps) := by
  have hyes : Contains (r.Header.Get "Accept-Encoding") "gzip" = true →
      zipper fn r ps =
          [.HeaderSet "Vary" "Accept-Encoding", .HeaderSet "Content-Encoding" "gzip"]
            ++ headerCalls (fn r ps) ++ [.Write (.gzip (bodyWrites (fn r ps)))]
        ∧ bodyWrites (zipper fn r ps) = [.gzip (bodyWrites (fn r ps))] := by
    intro hz
    have hb := bodyWrites_zipper fn r ps
    rw [if_pos hz] at hb
    refine ⟨?_, hb⟩
    simp [zipper, hz, gzipResponseWriter]
  have hno : Contains (r.Header.Get "Accept-Encoding") "gzip" = false →
      zipper fn r ps = fn r ps := by
    intro hz
    simp [zipper, hz]
  refine ⟨hyes, hno, ?_, ?_⟩
  · intro hg
    have hz : Contains (r.Header.Get "Accept-Encoding") "gzip" = true := by
      rw [hg]
      decide
    refine ⟨(hyes hz).2, ?_⟩
    rw [(hyes hz).1]
    simp [headerCalls_append, headerCalls, headerCalls_idem]
  · intro hv
    apply hno
    have hg : r.Header.Get "Accept-Encoding" = "" := by
      simp [Header.Get, hv]
    rw [hg]
    decide

/-- Witness of C8: a gzip request and a plain one, on a handler that writes twice. -/
theorem zipper_negotiates_gzip_witness :
    bodyWrites (zipper (fun _ _ => [.Write (.text "a"), .WriteHeader 200, .Write (.text "b")])
        reqStale []) = [.gzip [.text "a", .text "b"]]
      ∧ zipper (fun _ _ => [.Write (.text "a"), .WriteHeader 200, .Write (.text "b")]) {} []
          = [.Write (.text "a"), .WriteHeader 200, .Write (.text "b")] :=
  ⟨((zipper_negotiates_gzip
      (fun _ _ => [.Write (.text "a"), .WriteHeader 200, .Write (.text "b")]) reqStale []).1
      (by decide)).2,
   (zipper_negotiates_gzip
      (fun _ _ => [.Write (.text "a"), .WriteHeader 200, .Write (.text "b")]) {} []).2.1
      (by decide)⟩

/-- C9: for every request and both values of `auth`, a route built by `mw` with a
nil handler sets `Content-Type: application/json` and the three CORS headers (the
allowed headers being the request's `Access-Control-Request-Headers` values joined
by ","), writes status 200 and the JSON string "ok" (as one gzip stream when gzip is
negotiated), sets no cookie, calls no handler, and does the same whatever the auth
flag, `AdminToken` and validator are. -/
theorem nil_handler_preflight (h : handler) (env : Env) (auth : Bool) (r : Request)
    (ps : Params) :
    (h.fn env none auth r ps).calls =
        cors r ++ [.WriteHeader 200, .Write (.json (.string "ok"))]
      ∧ (h.fn env none auth r ps).ctx = none
      ∧ statusLines (h.mw env none auth r ps) = [200]
      ∧ bodyWrites (h.mw env none auth r ps) =
          (if Contains (r.Header.Get "Accept-Encoding") "gzip" = true
           then [.gzip [.json (.string "ok")]] else [.json (.string "ok")])
      ∧ headerValue "Content-Type" (h.mw env none auth r ps) = some "application/json"
      ∧ headerValue "Access-Control-Allow-Origin" (h.mw env none auth r ps) = some "*"
      ∧ headerValue "Access-Control-Allow-Methods" (h.mw env none auth r ps) =
          some "POST, GET, PUT, OPTIONS, DELETE"
      ∧ headerValue "Access-Control-Allow-Headers" (h.mw env none auth r ps) =
          some (",".intercalate (r.Header.values "Access-Control-Request-Headers"))
      ∧ cookiesSet (h.mw env none auth r ps) = []
      ∧ ∀ (env' : Env) (auth' : Bool),
          h.mw env' none auth' r ps = h.mw env none auth r ps := by
  have hfn : ∀ (e : Env) (a : Bool), h.fn e none a r ps =
      { calls := cors r ++ [.WriteHeader 200, .Write (.json (.string "ok"))], ctx := none,
        panic := none } := by
    intro e a
    rfl
  have hmw : ∀ (e : Env) (a : Bool), h.mw e none a r ps =
      zipper (fun r _ => cors r ++ [.WriteHeader 200, .Write (.json (.string "ok"))]) r ps := by
    intro e a
    rfl
  refine ⟨by rw [hfn], by rw [hfn], ?_, ?_, ?_, ?_, ?_, ?_, ?_, ?_⟩
  · rw [hmw, statusLines_zipper]
    rfl
  · rw [hmw, bodyWrites_zipper]
    rfl
  all_goals rw [hmw]
  · by_cases hz : Contains (r.Header.Get "Accept-Encoding") "gzip" = true <;>
      simp [zipper, hz, gzipResponseWriter, cors, headerCalls, headerValue]
  · by_cases hz : Contains (r.Header.Get "Accept-Encoding") "gzip" = true <;>
      simp [zipper, hz, gzipResponseWriter, cors, headerCalls, headerValue]
  · by_cases hz : Contains (r.Header.Get "Accept-Encoding") "gzip" = true <;>
      simp [zipper, hz, gzipResponseWriter, cors, headerCalls, headerValue]
  · by_cases hz : Contains (r.Header.Get "Accept-Encoding") "gzip" = true <;>
      simp [zipper, hz, gzipResponseWriter, cors, headerCalls, headerValue]
  · rw [cookiesSet_zipper]
    rfl
  · intro env' auth'
    rw [hmw]

/-- C10 as stated fails: the path "app/*filepath" ends with the wildcard suffix,
yet `serveFiles` mounts nothing, because `r.GET` panics on a path that does not
begin with '/'. -/
theorem serveFiles_slashless_counterexample :
    (lit "/*filepath" <:+ lit "app/*filepath")
      ∧ serveFiles openRouter (lit "app/*filepath") (fun _ => []) =
          .error (.message (lit "path must begin with '/' in path 'app/*filepath'"))
      ∧ ¬ ∃ r', serveFiles openRouter (lit "app/*filepath") (fun _ => []) = .ok r' := by
  have hs : lit "/*filepath" <:+ lit "app/*filepath" := ⟨lit "app", by decide⟩
  have hv : serveFiles openRouter (lit "app/*filepath") (fun _ => []) =
      .error (.message (lit "path must begin with '/' in path 'app/*filepath'")) := by
    rw [serveFiles_suffix _ _ _ hs, routerGET_slashless _ _ _ (by decide)]
    exact congrArg (fun m => Except.error (Panic.message m)) (by decide)
  refine ⟨hs, hv, ?_⟩
  rintro ⟨r', hr⟩
  rw [hv] at hr
  cases hr

/-- C10 (amended): `serveFiles` returns a router only if the path ends with the ten
bytes "/*filepath"; for such a path it does exactly what `r.GET` does with the
path, mounting the route last when the path begins with '/' and the route tree
takes it. For every other path, every path shorter than ten bytes included, it
panics with the "path must end with" message before `r.GET` is called and returns
no router; the slice expression of the check is never out of bounds. -/
theorem serveFiles_requires_wildcard (r : Router) (path : GoString)
    (fileServer : Request → List Call) :
    (∀ r', serveFiles r path fileServer = .ok r' →
        (lit "/*filepath" <:+ path) ∧ path.head? = some 47
          ∧ r.addRoute r.routes "GET" path = none
          ∧ ∃ handle, r'.routes =
              r.routes ++ [{ method := "GET", path := path, handle := handle }])
      ∧ ((lit "/*filepath" <:+ path) →
          serveFiles r path fileServer =
            r.GET path (zipper (fun req ps =>
              fileServer { req with URLPath := ps.ByName "filepath" })))
      ∧ ((lit "/*filepath" <:+ path) → path.head? = some 47 →
          r.addRoute r.routes "GET" path = none →
          ∃ r', serveFiles r path fileServer = .ok r')
      ∧ (¬ (lit "/*filepath" <:+ path) →
          serveFiles r path fileServer =
            .error (.message
              (lit "path must end with /*filepath in path '" ++ path ++ lit "'")))
      ∧ (path.length < 10 → ¬ (lit "/*filepath" <:+ path))
      ∧ serveFiles r path fileServer ≠ .error .sliceBounds
      ∧ (10 ≤ path.length →
          sliceFrom path ((path.length : Int) - 10) = .ok (path.drop (path.length - 10))) := by
  refine ⟨?_, serveFiles_suffix r path fileServer, ?_, serveFiles_no_suffix r path fileServer,
    ?_, ?_, sliceFrom_tail path⟩
  · intro r' hr
    have hs : lit "/*filepath" <:+ path := by
      by_contra hs
      rw [serveFiles_no_suffix r path fileServer hs] at hr
      cases hr
    rw [serveFiles_suffix r path fileServer hs] at hr
    obtain ⟨h1, h2, h3⟩ := routerGET_ok r path _ r' hr
    exact ⟨hs, h1, h2, _, h3⟩
  · intro hs h1 h2
    rw [serveFiles_suffix r path fileServer hs]
    exact ⟨_, routerGET_accepts r path _ h1 h2⟩
  · intro hl hsuf
    have h1 := hsuf.length_le
    have h2 : (lit "/*filepath").length = 10 := by decide
    omega
  · by_cases hs : lit "/*filepath" <:+ path
    · rw [serveFiles_suffix r path fileServer hs]
      exact routerGET_ne_sliceBounds r path _
    · rw [serveFiles_no_suffix r path fileServer hs]
      intro hc
      cases hc

/-- Witness of C10 (amended): the asset path "/app/*filepath" is mounted on a router
that takes it, the nine-byte path "*filepath" is refused by `serveFiles` itself. -/
theorem serveFiles_requires_wildcard_witness :
    (∃ r', serveFiles openRouter (lit "/app/*filepath") (fun _ => []) = .ok r')
      ∧ serveFiles openRouter (lit "*filepath") (fun _ => []) =
          .error (.message
            (lit "path must end with /*filepath in path '" ++ lit "*filepath" ++ lit "'")) :=
  ⟨(serveFiles_requires_wildcard openRouter (lit "/app/*filepath") (fun _ => [])).2.2.1
      ⟨lit "/app", by decide⟩ (by decide) rfl,
   (serveFiles_requires_wildcard openRouter (lit "*filepath") (fun _ => [])).2.2.2.1
      ((serveFiles_requires_wildcard openRouter (lit "*filepath") (fun _ => [])).2.2.2.2.1
        (by decide))⟩

end Floe
